import Mathlib

/-!
Verification of the hot-reload subsystem of the SuperBot repository:
the filesystem watcher / path classifier (`src/reloader/watcher.py`,
class `SmartReloader`), the startup extension loader
(`src/botcore/loader.py`), and the host registry operations they drive.

Paths are modelled as lists of components of the already-resolved
absolute path (`Path(...).resolve()` yields such a form); the raw string
checks `.endswith(".py")` / `.startswith("__")` are modelled on the last
component, which is where a suffix of a path string lives.
-/

namespace SuperBot

/-- Python `str.endswith`, on the character list of the string. -/
def endswith (s suff : String) : Bool :=
  List.isSuffixOf suff.data s.data

/-- Python `str.startswith`, on the character list of the string. -/
def startswith (s pre : String) : Bool :=
  List.isPrefixOf pre.data s.data

/-- Index of the last occurrence of `'.'` in a character list, if any
(helper for `Path.stem` / `Path.with_suffix`). -/
def lastDotAux : List Char → Nat → Option Nat → Option Nat
  | [], _, acc => acc
  | c :: rest, i, acc => lastDotAux rest (i + 1) (if c = '.' then some i else acc)

/-- Python `pathlib.PurePath.stem` of a file name: the name without its
final suffix.  Mirrors CPython: the suffix is `name[i:]` for the last
dot index `i` with `0 < i < len(name) - 1`, otherwise empty. -/
def stem (name : String) : String :=
  let cs := name.data
  match lastDotAux cs 0 none with
  | some i => if 0 < i ∧ i + 1 < cs.length then String.mk (cs.take i) else name
  | none => name

/-- Python `Path.with_suffix("")` applied to a path given as components:
the last component is replaced by its stem, the rest are unchanged. -/
def mapLastStem : List String → List String
  | [] => []
  | [x] => [stem x]
  | x :: y :: xs => x :: mapLastStem (y :: xs)

/-- Python `Path.relative_to`: the remaining components when `root` is a
leading run of `p`'s components, `none` when `relative_to` would raise
`ValueError` (path outside the root). -/
def relativeTo (p root : List String) : Option (List String) :=
  if List.isPrefixOf root p then some (p.drop root.length) else none

/-- Last component of a path, or the default for the empty path. -/
def lastOr (p : List String) (dflt : String) : String :=
  match p.getLast? with
  | some s => s
  | none => dflt

/-- The `event.src_path.endswith(".py")` test, on the component form of
the path: the final component carries the `.py` suffix. -/
def pathEndsPy (p : List String) : Bool :=
  match p.getLast? with
  | some s => endswith s ".py"
  | none => false

/-- A filesystem modification event as `SmartReloader.on_modified`
receives it: the directory flag and the (resolved) source path. -/
structure FsEvent where
  is_directory : Bool
  src_path : List String
deriving Repr, DecidableEq

/-- Reload action scheduled by the watcher onto the host loop: nothing,
a cog reload (`reload_cog` coroutine), or a shared-dependency reload
(`reload_dependency` coroutine). -/
inductive Action where
  | noReload
  | reloadCogA (name : String)
  | reloadDepA (name : String)
deriving Repr, DecidableEq

/-- The folder name `self.cogs_folder_name` fixed by
`SmartReloader.__init__`. -/
def cogs_folder_name : String := "cogs"

/-- Path classification performed by `SmartReloader.on_modified`
(watcher.py lines 22-46), as the action it schedules: directory events
and non-`.py` paths are dropped, the watcher's own file is skipped,
paths outside `root` are dropped; otherwise a path whose relative parts
contain the cogs folder name becomes a cog reload named
`"cogs." + stem`, and any other path becomes a dependency reload named
by the dotted relative parts with the suffix removed. -/
def classify (root self_file : List String) (ev : FsEvent) : Action :=
  if ev.is_directory then .noReload
  else if !pathEndsPy ev.src_path then .noReload
  else if ev.src_path = self_file then .noReload
  else
    match relativeTo ev.src_path root with
    | none => .noReload
    | some rel =>
      if rel.contains cogs_folder_name then
        .reloadCogA (cogs_folder_name ++ "." ++ stem (lastOr ev.src_path ""))
      else
        .reloadDepA (String.intercalate "." (mapLastStem rel))

/-- The body of `SmartReloader.on_modified` including the hand-off to the
host loop: `submit` stands for `asyncio.run_coroutine_threadsafe` on
`self.bot.loop` and may fail; the source wraps that call in no handler,
so a failing submission propagates (the `Except.error` result).  The
returned list holds the log lines printed by `on_modified` itself. -/
def on_modified (submit : Action → Except String Unit) (root self_file : List String)
    (ev : FsEvent) : Except String (List String) :=
  if ev.is_directory then .ok []
  else if !pathEndsPy ev.src_path then .ok []
  else if ev.src_path = self_file then
    .ok ["INFO: Change detected in reloader.py, skipping reload."]
  else
    match relativeTo ev.src_path root with
    | none => .ok []
    | some rel =>
      if rel.contains cogs_folder_name then
        match submit (.reloadCogA (cogs_folder_name ++ "." ++ stem (lastOr ev.src_path ""))) with
        | .ok _ => .ok []
        | .error e => .error e
      else
        match submit (.reloadDepA (String.intercalate "." (mapLastStem rel))) with
        | .ok _ => .ok []
        | .error e => .error e

/-- Whether an `on_modified` run completed without a propagating
exception. -/
def runOk (x : Except String (List String)) : Bool :=
  match x with
  | .ok _ => true
  | .error _ => false

/-- An attribute of an extension module object as `reload_dependency`
inspects it: whether it carries a `__module__` attribute and, when it
does, that declared origin module name. -/
structure DepAttr where
  has_module : Bool
  module_of : String
deriving Repr, DecidableEq

/-- An extension module object: the capabilities its registration entry
point installs on the host (event listeners / commands, by identifier),
and its attribute values (`vars(module).values()`). -/
structure ExtModule where
  caps : List String
  attrs : List DepAttr
deriving Repr, DecidableEq

/-- Outcome of importing (or re-importing and running the registration
entry point of) the latest on-disk version of a named extension. -/
inductive ImportResult where
  | ok (m : ExtModule)
  | err (msg : String)
deriving Repr, DecidableEq

/-- Host state the subsystem mutates: the extension registry
(`bot.extensions`, keyed by logical name) and the table of installed
capabilities, as (extension name, capability) pairs. -/
structure Host where
  extensions : List (String × ExtModule)
  installed : List (String × String)
deriving Repr, DecidableEq

/-- Names currently present in the registry. -/
def Host.keys (h : Host) : List String :=
  h.extensions.map Prod.fst

/-- Modelled from the spec: the host's `load_extension` (the chat SDK's
loader, outside this repository).  Per §4.1, a fresh load imports the
unit, calls its registration entry point, and inserts into the registry
on success; an import or registration exception leaves host state
untouched and surfaces as the error. -/
def host_load (h : Host) (name : String) (env : String → ImportResult) :
    Except String Host :=
  if h.keys.contains name then .error ("extension already loaded: " ++ name)
  else
    match env name with
    | .err e => .error e
    | .ok m =>
      .ok { extensions := h.extensions ++ [(name, m)],
            installed := h.installed ++ m.caps.map (fun c => (name, c)) }

/-- Modelled from the spec: the host's `reload_extension` (the chat
SDK's replace lifecycle, outside this repository).  Per §4.1, it
re-imports the module, tears down the old registrations for that name
before installing the new ones (so handlers are never duplicated), and
on failure leaves the previous working version registered: the registry
entry is only overwritten on success. -/
def host_reload (h : Host) (name : String) (env : String → ImportResult) :
    Except String Host :=
  if !h.keys.contains name then .error ("extension not loaded: " ++ name)
  else
    match env name with
    | .err e => .error e
    | .ok m =>
      .ok { extensions := h.extensions.map (fun p => if p.1 = name then (name, m) else p),
            installed := (h.installed.filter (fun p => p.1 ≠ name))
              ++ m.caps.map (fun c => (name, c)) }

/-- The body of `SmartReloader.reload_cog` (watcher.py lines 48-58):
reload when the name is already in `bot.extensions`, load otherwise;
any exception is caught and turned into a `Failed to reload` log line,
leaving host state as the host operation left it (unchanged on error).
Returns the resulting host state and the log line printed. -/
def reload_cog (h : Host) (env : String → ImportResult) (cog_name : String) :
    Host × String :=
  if h.keys.contains cog_name then
    match host_reload h cog_name env with
    | .ok h' => (h', "Reloaded cog: " ++ cog_name)
    | .error e => (h, "Failed to reload cog " ++ cog_name ++ ": " ++ e)
  else
    match host_load h cog_name env with
    | .ok h' => (h', "Loaded new cog: " ++ cog_name)
    | .error e => (h, "Failed to reload cog " ++ cog_name ++ ": " ++ e)

/-- The dependent scan of `SmartReloader.reload_dependency` (watcher.py
lines 74-79): the currently loaded extensions whose module object has
some attribute carrying a `__module__` equal to the changed module's
name. -/
def find_dependents (exts : List (String × ExtModule)) (module_name : String) :
    List String :=
  (exts.filter
      (fun p => p.2.attrs.any (fun a => a.has_module && a.module_of == module_name))).map
    Prod.fst

/-- Outcome of a `reload_dependency` run: the module was never imported
(skip), its in-place re-import raised (abort), no loaded cog depends on
it (log only), or the cascade reloaded the listed dependent cogs. -/
inductive DepOutcome where
  | notLoaded
  | importFailed
  | noDependents
  | cascaded (deps : List String)
deriving Repr, DecidableEq

/-- The body of `SmartReloader.reload_dependency` (watcher.py lines
60-87).  `sys_modules` is the set of module names already imported into
the process; `dep_reload_ok` tells whether `importlib.reload` of the
named module succeeds (it re-executes the changed file, so the outcome
depends on that file's contents).  Returns the resulting host state and
the outcome reached. -/
def reload_dependency (h : Host) (sys_modules : List String)
    (dep_reload_ok : String → Bool) (env : String → ImportResult)
    (module_name : String) : Host × DepOutcome :=
  if !sys_modules.contains module_name then (h, .notLoaded)
  else if !dep_reload_ok module_name then (h, .importFailed)
  else
    let cogs_to_reload := find_dependents h.extensions module_name
    if cogs_to_reload.isEmpty then (h, .noDependents)
    else (cogs_to_reload.foldl (fun hh c => (reload_cog hh env c).1) h,
          .cascaded cogs_to_reload)

/-- The cogs reloaded by a `reload_dependency` outcome. -/
def DepOutcome.reloaded : DepOutcome → List String
  | .cascaded deps => deps
  | _ => []

/-- Eligibility test of `load_all_cogs` (loader.py lines 11-12): the
file is matched by `glob("*.py")` and its name does not start with the
reserved `__` run. -/
def eligibleCogFile (f : String) : Bool :=
  endswith f ".py" && !startswith f "__"

/-- The body of `load_all_cogs` (loader.py lines 6-19): walk the files
of the cogs directory in discovery order; for each eligible file attempt
one `bot.load_extension("cogs." + stem)`, catching and logging a failure
and continuing with the rest.  Returns the final host state and the list
of cog names for which a load was attempted, in order. -/
def load_all_cogs (h : Host) (files : List String) (env : String → ImportResult) :
    Host × List String :=
  files.foldl
    (fun acc f =>
      if eligibleCogFile f then
        let name := cogs_folder_name ++ "." ++ stem f
        match host_load acc.1 name env with
        | .ok h' => (h', acc.2 ++ [name])
        | .error _ => (acc.1, acc.2 ++ [name])
      else acc)
    (h, [])

/-- The body of `maybe_start_watcher` (loader.py lines 22-26): the
watcher is started exactly when the configured application environment
is `"dev"`.  Returns whether `start_watcher` was called. -/
def maybe_start_watcher (app_env : String) : Bool :=
  app_env == "dev"

/-- The reload actions the running system can produce for a stream of
filesystem events: when the watcher was started they are the classified
actions of the events; when it was never started, no reload capability
exists and no event produces any action. -/
def system_reload_actions (app_env : String) (root self_file : List String)
    (events : List FsEvent) : List Action :=
  if maybe_start_watcher app_env then
    (events.map (classify root self_file)).filter (fun a => a ≠ .noReload)
  else []

/-! Theorems. -/

/-- C2: if the import or registration step raised during `reload_cog`
(the latest on-disk version fails to import or register), the host state
— the registry entry for the name and the installed registrations — is
exactly what it was before the attempted reload, for an already-loaded
name as well as for a first load (where the name stays absent); the
exception is caught and turned into the failure log line, never
propagated (`reload_cog` returns normally). -/
theorem reload_cog_failure_preserves_host (h : Host) (env : String → ImportResult)
    (name e : String) (henv : env name = .err e) :
    reload_cog h env name = (h, "Failed to reload cog " ++ name ++ ": " ++ e) := by
  by_cases hmem : name ∈ h.keys
  · simp [reload_cog, host_reload, hmem, henv]
  · simp [reload_cog, host_load, hmem, henv]

/-- Witness for C2 at a concrete host and a failing import. -/
theorem reload_cog_failure_preserves_host_witness :
    (fun _ => ImportResult.err "boom" : String → ImportResult) "cogs.a" = .err "boom" ∧
      reload_cog ⟨[("cogs.a", ⟨["l1"], []⟩)], [("cogs.a", "l1")]⟩
          (fun _ => ImportResult.err "boom") "cogs.a" =
        (⟨[("cogs.a", ⟨["l1"], []⟩)], [("cogs.a", "l1")]⟩,
          "Failed to reload cog cogs.a: boom") :=
  ⟨rfl, reload_cog_failure_preserves_host _ _ "cogs.a" "boom" rfl⟩

/-- C4: when the shared dependency's in-place re-import raises,
`reload_dependency` aborts before the dependent scan: host state is
unchanged (no `reload_cog` call happens) and the single outcome is the
logged import failure. -/
theorem dependency_import_failure_aborts_cascade (h : Host) (sys_modules : List String)
    (dep_reload_ok : String → Bool) (env : String → ImportResult) (module_name : String)
    (hmem : sys_modules.contains module_name = true)
    (hfail : dep_reload_ok module_name = false) :
    reload_dependency h sys_modules dep_reload_ok env module_name = (h, .importFailed) := by
  have hm : module_name ∈ sys_modules := by simpa using hmem
  simp [reload_dependency, hm, hfail]

/-- Witness for C4 at a concrete host whose one loaded cog does depend
on the broken dependency. -/
theorem dependency_import_failure_aborts_cascade_witness :
    (["utils"] : List String).contains "utils" = true ∧
      (fun _ => false : String → Bool) "utils" = false ∧
      reload_dependency ⟨[("cogs.a", ⟨["l1"], [⟨true, "utils"⟩]⟩)], [("cogs.a", "l1")]⟩
          ["utils"] (fun _ => false) (fun _ => ImportResult.err "e") "utils" =
        (⟨[("cogs.a", ⟨["l1"], [⟨true, "utils"⟩]⟩)], [("cogs.a", "l1")]⟩, .importFailed) :=
  ⟨rfl, rfl, dependency_import_failure_aborts_cascade _ _ _ _ "utils" rfl rfl⟩

/-- C10: a dependency module name absent from the loaded-module table
makes `reload_dependency` a complete no-op apart from the skip log: no
import, no dependent scan, no reload — host state unchanged and the
outcome is the `not yet loaded` skip. -/
theorem dependency_not_imported_noop (h : Host) (sys_modules : List String)
    (dep_reload_ok : String → Bool) (env : String → ImportResult) (module_name : String)
    (hmem : sys_modules.contains module_name = false) :
    reload_dependency h sys_modules dep_reload_ok env module_name = (h, .notLoaded) := by
  have hm : module_name ∉ sys_modules := by simpa using hmem
  simp [reload_dependency, hm]

/-- Witness for C10 at a concrete host with a never-imported module. -/
theorem dependency_not_imported_noop_witness :
    (["utils", "responses"] : List String).contains "fresh_helper" = false ∧
      reload_dependency ⟨[("cogs.a", ⟨["l1"], [⟨true, "fresh_helper"⟩]⟩)], []⟩
          ["utils", "responses"] (fun _ => true) (fun _ => ImportResult.err "e")
          "fresh_helper" =
        (⟨[("cogs.a", ⟨["l1"], [⟨true, "fresh_helper"⟩]⟩)], []⟩, .notLoaded) :=
  ⟨by decide, dependency_not_imported_noop _ _ _ _ "fresh_helper" (by decide)⟩

/-- C7: the watcher is started exactly when the configured application
environment is the development flag `"dev"`; in every other mode
`start_watcher` is never called, so no reload capability exists and no
stream of file modifications produces any reload action. -/
theorem watcher_started_iff_dev (app_env : String) (root self_file : List String)
    (events : List FsEvent) :
    (maybe_start_watcher app_env = true ↔ app_env = "dev") ∧
      (app_env ≠ "dev" → system_reload_actions app_env root self_file events = []) := by
  constructor
  · simp [maybe_start_watcher]
  · intro hne
    simp [system_reload_actions, maybe_start_watcher, hne]

/-- Witness for C7: in `"prod"` mode a modification to a cog file
yields no reload action. -/
theorem watcher_started_iff_dev_witness :
    ("prod" : String) ≠ "dev" ∧
      system_reload_actions "prod" ["app"] ["app", "reloader", "watcher.py"]
          [⟨false, ["app", "cogs", "timer.py"]⟩] = [] :=
  ⟨by decide, (watcher_started_iff_dev "prod" _ _ _).2 (by decide)⟩

/-- Helper for C6: the attempt list accumulated by the `load_all_cogs`
fold is the eligible files mapped to their cog names, whatever the host
state and whatever each load's outcome. -/
theorem load_all_cogs_foldl_snd (env : String → ImportResult) (files : List String) :
    ∀ (hh : Host) (acc : List String),
      (files.foldl
          (fun acc f =>
            if eligibleCogFile f then
              let name := cogs_folder_name ++ "." ++ stem f
              match host_load acc.1 name env with
              | .ok h' => (h', acc.2 ++ [name])
              | .error _ => (acc.1, acc.2 ++ [name])
            else acc)
          (hh, acc)).2 =
        acc ++ (files.filter eligibleCogFile).map
          (fun f => cogs_folder_name ++ "." ++ stem f) := by
  induction files with
  | nil => intro hh acc; simp
  | cons f t ih =>
    intro hh acc
    by_cases hf : eligibleCogFile f = true
    · simp only [List.foldl_cons, List.filter_cons, hf, if_true]
      cases hl : host_load hh (cogs_folder_name ++ "." ++ stem f) env with
      | ok h' => simp [hl, ih]
      | error e => simp [hl, ih]
    · simp only [Bool.not_eq_true] at hf
      simp [List.foldl_cons, List.filter_cons, hf, ih]

/-- C6: on startup `load_all_cogs` attempts exactly one load for every
file of the cogs directory that ends in `.py` and does not start with
`__`, in discovery order, and a failing load neither removes its own
attempt nor prevents any later file's attempt: the attempt list is the
same for every import environment, including ones where loads raise. -/
theorem load_all_cogs_attempts_each_eligible_once (h : Host) (files : List String)
    (env : String → ImportResult) :
    (load_all_cogs h files env).2 =
      (files.filter eligibleCogFile).map (fun f => cogs_folder_name ++ "." ++ stem f) := by
  simpa [load_all_cogs] using load_all_cogs_foldl_snd env files h []

/-- C3: a modification event whose path is outside the watch root, or
whose resolved path is the watcher's own source file, schedules no
reload at all: it classifies to no action, and `on_modified` completes
normally even when every submission to the host loop would fail —
showing no cog-reload or dependency-reload coroutine was submitted. -/
theorem outside_or_self_schedules_nothing (root self_file : List String) (ev : FsEvent)
    (submit : Action → Except String Unit)
    (hcond : relativeTo ev.src_path root = none ∨ ev.src_path = self_file) :
    classify root self_file ev = .noReload ∧
      runOk (on_modified submit root self_file ev) = true := by
  by_cases hdir : ev.is_directory
  · simp [classify, on_modified, hdir, runOk]
  · by_cases hpy : pathEndsPy ev.src_path = true
    · by_cases hself : ev.src_path = self_file
      · subst hself
        simp [classify, on_modified, hdir, hpy, runOk]
      · rcases hcond with hout | hself2
        · simp [classify, on_modified, hdir, hpy, hself, hout, runOk]
        · exact absurd hself2 hself
    · simp only [Bool.not_eq_true] at hpy
      simp [classify, on_modified, hdir, hpy, runOk]

/-- Witness for C3 at a path outside the watch root, with a bridge that
would reject any submission. -/
theorem outside_or_self_schedules_nothing_witness :
    (relativeTo ["elsewhere", "f.py"] ["app"] = none ∨
        (["elsewhere", "f.py"] : List String) = ["app", "reloader", "watcher.py"]) ∧
      (classify ["app"] ["app", "reloader", "watcher.py"]
            ⟨false, ["elsewhere", "f.py"]⟩ = .noReload ∧
        runOk (on_modified (fun _ => Except.error "down") ["app"]
            ["app", "reloader", "watcher.py"] ⟨false, ["elsewhere", "f.py"]⟩) = true) :=
  ⟨Or.inl (by decide),
    outside_or_self_schedules_nothing _ _ _ _ (Or.inl (by decide))⟩

/-- Helper for C5: membership in the dependent scan is exactly holding
some attribute whose declared origin module is the changed module. -/
theorem mem_find_dependents (exts : List (String × ExtModule)) (module_name n : String) :
    n ∈ find_dependents exts module_name ↔
      ∃ em : ExtModule, (n, em) ∈ exts ∧
        em.attrs.any (fun a => a.has_module && a.module_of == module_name) = true := by
  constructor
  · intro hn
    simp only [find_dependents, List.mem_map] at hn
    rcases hn with ⟨p, hp, rfl⟩
    rcases List.mem_filter.mp hp with ⟨hpm, hpp⟩
    exact ⟨p.2, by simpa using hpm, hpp⟩
  · rintro ⟨em, hm, hany⟩
    simp only [find_dependents, List.mem_map]
    exact ⟨(n, em), List.mem_filter.mpr ⟨hm, hany⟩, rfl⟩

/-- C5: after a successful in-place re-import of a loaded dependency,
`reload_dependency` reloads exactly those loaded extensions holding a
live module attribute whose declared origin equals the changed module's
name, and no other; when that set is empty the outcome is the log-only
no-op, with host state untouched. -/
theorem dependency_cascade_reloads_exact_dependents (h : Host) (sys_modules : List String)
    (dep_reload_ok : String → Bool) (env : String → ImportResult) (module_name : String)
    (hmem : sys_modules.contains module_name = true)
    (hok : dep_reload_ok module_name = true) :
    (∀ n, n ∈ ((reload_dependency h sys_modules dep_reload_ok env module_name).2).reloaded ↔
        ∃ em : ExtModule, (n, em) ∈ h.extensions ∧
          em.attrs.any (fun a => a.has_module && a.module_of == module_name) = true) ∧
      (find_dependents h.extensions module_name = [] →
        reload_dependency h sys_modules dep_reload_ok env module_name =
          (h, .noDependents)) := by
  have hm : module_name ∈ sys_modules := by simpa using hmem
  have hout : ((reload_dependency h sys_modules dep_reload_ok env module_name).2).reloaded
      = find_dependents h.extensions module_name := by
    by_cases hdeps : find_dependents h.extensions module_name = []
    · simp [reload_dependency, hm, hok, hdeps, DepOutcome.reloaded]
    · simp [reload_dependency, hm, hok, hdeps, DepOutcome.reloaded]
  refine ⟨fun n => ?_, fun hdeps => ?_⟩
  · rw [hout]
    exact mem_find_dependents _ _ _
  · simp [reload_dependency, hm, hok, hdeps]

/-- Witness for C5 at a concrete host where `cogs.a` holds a reference
into `utils` and `cogs.b` does not. -/
theorem dependency_cascade_reloads_exact_dependents_witness :
    (["utils"] : List String).contains "utils" = true ∧
      ("cogs.a" ∈ ((reload_dependency
            ⟨[("cogs.a", ⟨["lA1"], [⟨true, "utils"⟩]⟩),
              ("cogs.b", ⟨["lB"], [⟨true, "other"⟩]⟩)], []⟩
            ["utils"] (fun _ => true) (fun _ => ImportResult.err "e") "utils").2).reloaded ↔
        ∃ em : ExtModule,
          ("cogs.a", em) ∈
            [("cogs.a", (⟨["lA1"], [⟨true, "utils"⟩]⟩ : ExtModule)),
              ("cogs.b", ⟨["lB"], [⟨true, "other"⟩]⟩)] ∧
            em.attrs.any (fun a => a.has_module && a.module_of == "utils") = true) :=
  ⟨rfl,
    (dependency_cascade_reloads_exact_dependents
        ⟨[("cogs.a", ⟨["lA1"], [⟨true, "utils"⟩]⟩),
          ("cogs.b", ⟨["lB"], [⟨true, "other"⟩]⟩)], []⟩
        ["utils"] (fun _ => true) (fun _ => ImportResult.err "e") "utils"
        (by decide) rfl).1 "cogs.a"⟩

/-- Unfolding of the registry key list. -/
theorem Host.keys_def (h : Host) : h.keys = h.extensions.map Prod.fst := rfl

/-- Replacing the value at a key leaves the key list unchanged. -/
theorem keys_map_replace (l : List (String × ExtModule)) (name : String) (m : ExtModule) :
    (l.map (fun p => if p.1 = name then (name, m) else p)).map Prod.fst
      = l.map Prod.fst := by
  induction l with
  | nil => rfl
  | cons p t ih =>
    by_cases hp : p.1 = name
    · simp [hp, ih]
    · simp [hp, ih]

/-- Post-state of a successful `reload_cog` on an already-loaded name:
the registry entry is replaced in place and the old registrations for
the name are removed before the new ones are installed. -/
theorem reload_cog_step (h : Host) (env : String → ImportResult) (name : String)
    (m : ExtModule) (hmem : name ∈ h.keys) (henv : env name = .ok m) :
    (reload_cog h env name).1 =
      { extensions := h.extensions.map (fun p => if p.1 = name then (name, m) else p),
        installed := (h.installed.filter (fun p => p.1 ≠ name))
          ++ m.caps.map (fun c => (name, c)) } := by
  simp [reload_cog, host_reload, hmem, henv]

/-- A successful reload of a loaded name never changes the key list. -/
theorem reload_cog_keys (h : Host) (env : String → ImportResult) (name : String)
    (m : ExtModule) (hmem : name ∈ h.keys) (henv : env name = .ok m) :
    ((reload_cog h env name).1).keys = h.keys := by
  rw [Host.keys_def, Host.keys_def, reload_cog_step h env name m hmem henv]
  exact keys_map_replace _ _ _

/-- With pairwise-distinct keys, a present key owns exactly one
registry entry. -/
theorem filter_key_length_one (l : List (String × ExtModule)) (name : String)
    (hnd : (l.map Prod.fst).Nodup) (hm : name ∈ l.map Prod.fst) :
    (l.filter (fun p => p.1 == name)).length = 1 := by
  induction l with
  | nil => simp at hm
  | cons p t ih =>
    rw [List.map_cons, List.nodup_cons] at hnd
    obtain ⟨hp, hnd⟩ := hnd
    rw [List.map_cons, List.mem_cons] at hm
    by_cases hpe : p.1 = name
    · have htn : (t.filter (fun q => q.1 == name)).length = 0 := by
        rw [List.length_eq_zero, List.filter_eq_nil_iff]
        intro q hq hqn
        rw [beq_iff_eq] at hqn
        exact hp (hpe ▸ hqn ▸ List.mem_map.mpr ⟨q, hq, rfl⟩)
      simp [List.filter_cons, hpe, htn]
    · rcases hm with h1 | h2
      · exact absurd h1.symm hpe
      · simp only [List.filter_cons, beq_iff_eq, hpe]
        simpa using ih hnd h2

/-- Replacing a key's value does not change how many entries carry the
key. -/
theorem filter_key_map_replace (l : List (String × ExtModule)) (name : String)
    (m : ExtModule) :
    ((l.map (fun p => if p.1 = name then (name, m) else p)).filter
        (fun p => p.1 == name)).length
      = (l.filter (fun p => p.1 == name)).length := by
  induction l with
  | nil => rfl
  | cons p t ih =>
    by_cases hp : p.1 = name
    · simp [List.filter_cons, hp, ih]
    · simp [List.filter_cons, hp, ih]

/-- After a teardown-then-install of a name's capabilities, the
installed registrations carrying the name are exactly the freshly
declared ones. -/
theorem installed_filter_after_replace (inst : List (String × String)) (name : String)
    (caps : List String) :
    (((inst.filter (fun p => p.1 ≠ name)) ++ caps.map (fun c => (name, c))).filter
        (fun p => p.1 == name)).length = caps.length := by
  rw [List.filter_append]
  have h1 : (inst.filter (fun p => p.1 ≠ name)).filter (fun p => p.1 == name) = [] := by
    rw [List.filter_eq_nil_iff]
    intro q hq hqn
    rw [beq_iff_eq] at hqn
    have := List.of_mem_filter hq
    simp [hqn] at this
  have h2 : (caps.map (fun c => (name, c))).filter (fun p => p.1 == name)
      = caps.map (fun c => (name, c)) := by
    rw [List.filter_eq_self]
    intro q hq
    rcases List.mem_map.mp hq with ⟨c, _, rfl⟩
    simp
  rw [h1, h2]
  simp

/-- C1: reloading an already-loaded extension any positive number of
times leaves no duplicate registrations: after N reloads the installed
capabilities for the name are exactly as many as the latest version
declares, and the registry holds exactly one entry for the name. -/
theorem reload_cog_no_duplicate_registrations (h : Host) (env : String → ImportResult)
    (name : String) (m : ExtModule) (N : Nat) (hnd : h.keys.Nodup)
    (hmem : name ∈ h.keys) (henv : env name = .ok m) (hN : 1 ≤ N) :
    ((((fun hh => (reload_cog hh env name).1)^[N] h).installed.filter
        (fun p => p.1 == name)).length = m.caps.length) ∧
      ((((fun hh => (reload_cog hh env name).1)^[N] h).extensions.filter
        (fun p => p.1 == name)).length = 1) := by
  obtain ⟨k, rfl⟩ : ∃ k, N = k + 1 := ⟨N - 1, (Nat.succ_pred_eq_of_pos hN).symm⟩
  have hkeys : ∀ j, (((fun hh => (reload_cog hh env name).1)^[j] h)).keys = h.keys := by
    intro j
    induction j with
    | zero => rfl
    | succ j ih =>
      rw [Function.iterate_succ_apply']
      rw [reload_cog_keys _ env name m (by rw [ih]; exact hmem) henv, ih]
  rw [Function.iterate_succ_apply']
  have hmemk : name ∈ ((fun hh => (reload_cog hh env name).1)^[k] h).keys := by
    rw [hkeys k]; exact hmem
  rw [reload_cog_step _ env name m hmemk henv]
  constructor
  · exact installed_filter_after_replace _ _ _
  · rw [filter_key_map_replace]
    have hk := hkeys k
    rw [Host.keys_def, Host.keys_def] at hk
    exact filter_key_length_one _ _ (hk ▸ hnd) (hk ▸ hmem)

/-- Latest on-disk version of `cogs.a` used by the C1 witness. -/
def sampleNewA : ExtModule := ⟨["lA1", "lA2", "lA3"], [⟨true, "utils"⟩]⟩

/-- Sample two-extension host used by the C1 witness. -/
def sampleHost : Host :=
  ⟨[("cogs.a", ⟨["lA1", "lA2"], [⟨true, "utils"⟩]⟩),
    ("cogs.b", ⟨["lB"], [⟨true, "other"⟩]⟩)],
    [("cogs.a", "lA1"), ("cogs.a", "lA2"), ("cogs.b", "lB")]⟩

/-- Import environment whose latest `cogs.a` is `sampleNewA`. -/
def sampleEnv : String → ImportResult :=
  fun n => if n = "cogs.a" then .ok sampleNewA else .err "boom"

/-- Witness for C1: two consecutive reloads of `cogs.a` on a concrete
host leave three installed capabilities (the latest declaration) and
one registry entry. -/
theorem reload_cog_no_duplicate_registrations_witness :
    (sampleHost.keys.Nodup ∧ "cogs.a" ∈ sampleHost.keys ∧
        sampleEnv "cogs.a" = .ok sampleNewA ∧ 1 ≤ 2) ∧
      ((((fun hh => (reload_cog hh sampleEnv "cogs.a").1)^[2] sampleHost).installed.filter
          (fun p => p.1 == "cogs.a")).length = sampleNewA.caps.length ∧
        (((fun hh => (reload_cog hh sampleEnv "cogs.a").1)^[2] sampleHost).extensions.filter
          (fun p => p.1 == "cogs.a")).length = 1) :=
  ⟨⟨by decide, by decide, rfl, by decide⟩,
    reload_cog_no_duplicate_registrations sampleHost sampleEnv "cogs.a" sampleNewA 2
      (by decide) (by decide) rfl (by decide)⟩

/-- A successful `relative_to` decomposes the path as root followed by
the relative parts. -/
theorem relativeTo_eq_append (p root rel : List String)
    (h : relativeTo p root = some rel) : p = root ++ rel := by
  unfold relativeTo at h
  split at h
  case isTrue hpre =>
    obtain ⟨t, rfl⟩ := List.isPrefixOf_iff_prefix.mp hpre
    obtain rfl : t = rel := by
      have := Option.some.inj h
      simpa [List.drop_left] using this
    rfl
  case isFalse => exact absurd h (by simp)

/-- The final path component is unchanged by removing a leading run of
components, as long as the remainder is nonempty. -/
theorem lastOr_append (l rel : List String) (hne : rel ≠ []) (d : String) :
    lastOr (l ++ rel) d = lastOr rel d := by
  unfold lastOr
  rw [List.getLast?_append]
  obtain ⟨x, hx⟩ := Option.isSome_iff_exists.mp (List.getLast?_isSome.mpr hne)
  rw [hx]
  rfl

/-- Counterexample to C8: for the cog file `cogs/sub/foo.py` — inside
the designated extensions subdirectory — the classifier derives the
name `cogs.foo`, dropping the intermediate directory, not the
directory-qualified `cogs.sub.foo` the claim requires. -/
theorem classify_name_not_directory_qualified :
    classify ["app"] ["app", "reloader", "watcher.py"]
        ⟨false, ["app", "cogs", "sub", "foo.py"]⟩ = .reloadCogA "cogs.foo" ∧
      ("cogs.foo" : String) ≠ "cogs.sub.foo" := by
  constructor
  · rfl
  · decide

/-- C8 as amended: for a non-directory `.py` modification under the
watch root that is not the watcher's own file, the classifier dispatches
to the extension loader exactly when the cogs folder name occurs among
the relative path's components, and the logical name is then the cogs
folder name joined with the changed file's stem (intermediate
directories are dropped); every other such path is classified as a
shared dependency named by the directory-qualified dotted relative path
with the source suffix removed. -/
theorem classify_dispatch_on_cogs_component (root self_file : List String) (ev : FsEvent)
    (rel : List String) (hdir : ev.is_directory = false)
    (hpy : pathEndsPy ev.src_path = true) (hself : ev.src_path ≠ self_file)
    (hrel : relativeTo ev.src_path root = some rel) (hne : rel ≠ []) :
    classify root self_file ev =
      if rel.contains cogs_folder_name then
        .reloadCogA (cogs_folder_name ++ "." ++ stem (lastOr rel ""))
      else .reloadDepA (String.intercalate "." (mapLastStem rel)) := by
  have hlast : lastOr ev.src_path "" = lastOr rel "" := by
    rw [relativeTo_eq_append _ _ _ hrel]
    exact lastOr_append _ _ hne _
  simp only [classify, hdir, hpy, hself, hrel, hlast, Bool.false_eq_true, if_false,
    Bool.not_true, if_neg (fun hc => hself hc)]

/-- Witness for the amended C8 at a dependency file and at a cog
file. -/
theorem classify_dispatch_on_cogs_component_witness :
    ((⟨false, ["app", "features", "x.py"]⟩ : FsEvent).is_directory = false ∧
        pathEndsPy ["app", "features", "x.py"] = true ∧
        (["app", "features", "x.py"] : List String) ≠ ["app", "reloader", "watcher.py"] ∧
        relativeTo ["app", "features", "x.py"] ["app"] = some ["features", "x.py"] ∧
        (["features", "x.py"] : List String) ≠ []) ∧
      classify ["app"] ["app", "reloader", "watcher.py"]
          ⟨false, ["app", "features", "x.py"]⟩ =
        if (["features", "x.py"] : List String).contains cogs_folder_name then
          .reloadCogA (cogs_folder_name ++ "." ++ stem (lastOr ["features", "x.py"] ""))
        else .reloadDepA (String.intercalate "." (mapLastStem ["features", "x.py"])) :=
  ⟨⟨rfl, by decide, by decide, by decide, by decide⟩,
    classify_dispatch_on_cogs_component ["app"] ["app", "reloader", "watcher.py"]
      ⟨false, ["app", "features", "x.py"]⟩ ["features", "x.py"]
      rfl (by decide) (by decide) (by decide) (by decide)⟩

/-- A host bridge whose submission is rejected, as `run_coroutine_threadsafe`
rejects work when the target loop is already closed. -/
def submitDown : Action → Except String Unit :=
  fun _ => Except.error "Event loop is closed"

/-- Counterexample to C9: a cog-file modification submitted while the
host loop rejects submissions makes `on_modified` end in the
propagating error — the callback catches nothing and logs nothing, so
the failure is not dropped-and-logged as the claim states. -/
theorem bridge_failure_not_caught :
    runOk (on_modified submitDown ["app"] ["app", "reloader", "watcher.py"]
        ⟨false, ["app", "cogs", "timer.py"]⟩) = false ∧
      on_modified submitDown ["app"] ["app", "reloader", "watcher.py"]
          ⟨false, ["app", "cogs", "timer.py"]⟩ = Except.error "Event loop is closed" :=
  ⟨rfl, rfl⟩

/-- C9 as amended: a reload submission made while the host's scheduler
is unavailable is not retried, but nothing is logged for it and the
hand-off failure propagates out of the watcher's event callback: for
every event the classifier turns into a reload action, a failing
submission makes `on_modified` end in exactly that error. -/
theorem bridge_failure_propagates (root self_file : List String) (ev : FsEvent)
    (msg : String) (hact : classify root self_file ev ≠ .noReload) :
    on_modified (fun _ => Except.error msg) root self_file ev = Except.error msg := by
  by_cases hdir : ev.is_directory
  · exact absurd (by simp [classify, hdir]) hact
  · by_cases hpy : pathEndsPy ev.src_path = true
    · by_cases hself : ev.src_path = self_file
      · exact absurd (by simp [classify, hdir, hpy, hself]) hact
      · cases hrel : relativeTo ev.src_path root with
        | none => exact absurd (by simp [classify, hdir, hpy, hself, hrel]) hact
        | some rel =>
          by_cases hc : rel.contains cogs_folder_name = true
          · simp [on_modified, hdir, hpy, hself, hrel, hc]
          · simp only [Bool.not_eq_true] at hc
            simp [on_modified, hdir, hpy, hself, hrel, hc]
    · simp only [Bool.not_eq_true] at hpy
      exact absurd (by simp [classify, hdir, hpy]) hact

/-- Witness for the amended C9: the concrete cog-file event above, with
every submission failing. -/
theorem bridge_failure_propagates_witness :
    (classify ["app"] ["app", "reloader", "watcher.py"]
        ⟨false, ["app", "cogs", "timer.py"]⟩ ≠ .noReload) ∧
      on_modified (fun _ => Except.error "down") ["app"] ["app", "reloader", "watcher.py"]
          ⟨false, ["app", "cogs", "timer.py"]⟩ = Except.error "down" :=
  ⟨by decide,
    bridge_failure_propagates ["app"] ["app", "reloader", "watcher.py"]
      ⟨false, ["app", "cogs", "timer.py"]⟩ "down" (by decide)⟩

end SuperBot
